import Mathlib

/-!
Verification of the gopenpgp session-key and streaming-verification core.

This file gives a shallow embedding, in Lean 4, of the two source files of
the repository:

* `crypto/sessionkey.go` — the `SessionKey` value object, the symmetric
  algorithm registry and its reverse lookup `getAlgo`, the `checkSize`
  validation, the `checkReader` integrity-checking reader, and the
  session-key decrypt-and-verify wiring
  (`decryptWithSessionKeyAndContext` and its public wrappers);

* the verification handle file (`verifyHandle`) — the construction of
  streaming verification readers for the inline and detached paths
  (`verifyHandle.verifyingReader`, `verifyingDetachedReader`), and the
  cleartext verification path (`verifyHandle.verifyCleartext`).

External collaborators (the OpenPGP engine: `openpgp.ReadMessage`,
`openpgp.VerifyDetachedSignatureReader`, `clearsign.Decode`, the packet
ciphers) are modelled as explicit parameters or, where the specification
pins their behaviour, as definitions whose doc comment starts with
`Modelled from the spec:`.

Bytes are modelled as `List Nat`; Go's multiple return `(T, error)` is
modelled as a pair or an `Except`; Go readers are modelled by the sequence
of results their successive `Read` calls produce; the wall clock is
modelled as a function from a sample counter to an instant, so that "the
clock is sampled once" is expressible.
-/

namespace constants

def ThreeDES : String := "3des"

def TripleDES : String := "tripledes"

def CAST5 : String := "cast5"

def AES128 : String := "aes128"

def AES192 : String := "aes192"

def AES256 : String := "aes256"

def SignatureContextName : String := "context@proton.ch"

end constants

/-- Engine cipher codes (`packet.CipherFunction` of the OpenPGP engine),
as plain naturals: 3DES = 2, CAST5 = 3, AES-128 = 7, AES-192 = 8,
AES-256 = 9; 0 is the absent/implicit code. -/
abbrev CipherFunction := Nat

/-- Key size in bytes of each engine cipher code (`CipherFunction.KeySize`
of the engine); unknown codes have size 0. -/
def CipherFunction.keySize : CipherFunction → Nat
  | 2 => 24
  | 3 => 16
  | 7 => 16
  | 8 => 24
  | 9 => 32
  | _ => 0

/-- The fixed algorithm registry `symKeyAlgos` of `sessionkey.go`: a map
from algorithm identifier to engine cipher code, with two aliases for
triple-DES.  The Go map is modelled as its association list; lookup by
key is order-independent, and the (randomized) iteration order used by
`getAlgo` is passed to that function explicitly as any permutation of
these entries. -/
def symKeyAlgos : List (String × CipherFunction) :=
  [(constants.ThreeDES, 2),
   (constants.TripleDES, 2),
   (constants.CAST5, 3),
   (constants.AES128, 7),
   (constants.AES192, 8),
   (constants.AES256, 9)]

/-- Go map lookup `symKeyAlgos[algo]`. -/
def symKeyAlgosLookup (algo : String) : Option CipherFunction :=
  (symKeyAlgos.find? (fun p => p.1 == algo)).map (fun p => p.2)

/-- `SessionKey` of `sessionkey.go`: a raw symmetric key, its algorithm
identifier, and the version-6 (implicit algorithm) flag. -/
structure SessionKey where
  V6 : Bool
  Key : List Nat
  Algo : String
deriving DecidableEq

/-- The three error outcomes of `SessionKey.checkSize` in
`sessionkey.go`, kept distinct as in the source. -/
inductive CheckSizeError
  | emptySessionKey
  | unknownAlgorithm
  | wrongKeySize
deriving DecidableEq

/-- `SessionKey.checkSize` of `sessionkey.go`: in V6 (implicit) mode the
key must only be non-empty; otherwise the algorithm must be a registry
entry and the key length must equal that algorithm's key size exactly.
`none` is success, `some e` the hard validation error. -/
def SessionKey.checkSize (sk : SessionKey) : Option CheckSizeError :=
  if sk.V6 then
    if sk.Key.length = 0 then some .emptySessionKey else none
  else
    match symKeyAlgosLookup sk.Algo with
    | none => some .unknownAlgorithm
    | some cf =>
      if CipherFunction.keySize cf ≠ sk.Key.length then some .wrongKeySize
      else none

/-- `getAlgo` of `sessionkey.go`.  The Go `for k, v := range symKeyAlgos`
loop iterates the map in an unspecified order and stops at the first
entry whose code matches; `order` is that iteration order (any
permutation of `symKeyAlgos`).  A zero code yields the empty (implicit)
identifier; an unmatched nonzero code falls through to the initial value
`constants.AES256`. -/
def getAlgo (order : List (String × CipherFunction)) (cipher : CipherFunction) : String :=
  if cipher = 0 then ""
  else
    match order.find? (fun p => p.2 == cipher) with
    | some p => p.1
    | none => constants.AES256

/-- A result of a single `Read` call of the inner decrypted-body reader:
the bytes delivered by this call, and the error value returned with them
(`none` = nil error, clean end-of-stream is `some .eof`). -/
inductive ReadErr
  | eof
  | ioError (s : String)
deriving DecidableEq

structure BodyReadResult where
  data : List Nat
  err : Option ReadErr
deriving DecidableEq

/-- The error value returned by `checkReader.Read`: end-of-stream, an
integrity-finalization (MDC) failure, or the engine's structural parsing
error — three distinct kinds, as in the source. -/
inductive CheckReadErr
  | eof
  | mdcError (s : String)
  | structuralError (s : String)
deriving DecidableEq

/-- Outcome of one `checkReader.Read` call: the Go return value
`(n, err)` together with the delivered bytes, plus the instrumentation
flag `closedNow` recording whether this call invoked
`cr.decrypted.Close()` (the integrity finalization effect). -/
structure CheckReadOutcome where
  n : Nat
  data : List Nat
  err : Option CheckReadErr
  closedNow : Bool
deriving DecidableEq

/-- `checkReader.Read` of `sessionkey.go`.  `mdcResult` is the result
`cr.decrypted.Close()` would produce (`none` = success); `r` is what the
inner `cr.body.Read` call returns.  On clean end-of-stream the
finalization is invoked: a failure there is returned in place of
end-of-stream, success yields end-of-stream.  Any other read error is
reclassified as the structural parsing error.  Otherwise the bytes are
forwarded unchanged with a nil error. -/
def checkReader.Read (mdcResult : Option String) (r : BodyReadResult) : CheckReadOutcome :=
  match r.err with
  | some .eof =>
    match mdcResult with
    | some e => ⟨r.data.length, r.data, some (.mdcError e), true⟩
    | none => ⟨r.data.length, r.data, some .eof, true⟩
  | some (.ioError _) =>
    ⟨r.data.length, r.data, some (.structuralError "parsing error"), false⟩
  | none => ⟨r.data.length, r.data, none, false⟩

/-- How many times a sequence of `Read` calls on a `checkReader` invokes
the integrity finalization `cr.decrypted.Close()`: the trace lists, call
by call, what the inner body reader returns. -/
def checkReader.runCloseCount (mdcResult : Option String) (trace : List BodyReadResult) : Nat :=
  trace.countP (fun r => (checkReader.Read mdcResult r).closedNow)

/-- A key ring of verification keys; its contents are opaque to the code
under verification (the engine resolves issuers against it), so it is
modelled as an abstract list of entities. -/
structure KeyRing where
  entities : List Nat
deriving DecidableEq

/-- The literal-data metadata of the engine's `MessageDetails`
(`md.LiteralData`): UTF-8 flag, file name, and modification time (a
32-bit timestamp, modelled as a natural). -/
structure LiteralDataInfo where
  IsUTF8 : Bool
  FileName : String
  Time : Nat
deriving DecidableEq

/-- The engine's `MessageDetails` as seen by
`decryptWithSessionKeyAndContext`: draining `md.UnverifiedBody` to
completion either yields the full decrypted packet-body bytes or fails
with a read error, and `md.LiteralData` carries the metadata. -/
structure MessageDetails where
  UnverifiedBody : Except String (List Nat)
  LiteralData : LiteralDataInfo

/-- `PlainMessage` of gopenpgp: decrypted data plus metadata. -/
structure PlainMessage where
  Data : List Nat
  IsUTF8 : Bool
  Filename : String
  ModTime : Int
deriving DecidableEq

/-- The signature-shaped outcomes of embedded-signature verification
(the error values `verifyDetailsSignature` can produce). -/
inductive SignatureError
  | noVerifier
  | failed
  | notSigned
  | expired
  | contextError
deriving DecidableEq

/-- The error value returned by the decrypt path: either a hard
(non-signature) error message, or a signature verification outcome. -/
inductive PGPError
  | message (s : String)
  | signature (e : SignatureError)
deriving DecidableEq

/-- `decryptWithSessionKeyAndContext` of `sessionkey.go`.

`decryptStream` is the outcome of the engine call
`decryptStreamWithSessionKey` (its body already drained: the code reads
`md.UnverifiedBody` into a buffer immediately); `verifyDetails` is the
combined outcome of `processSignatureExpiration` followed by
`verifyDetailsSignature` (both outside `src`, taken as an abstract
parameter), applied only when `verifyKeyRing` is non-nil.  The Go pair
return `(*PlainMessage, error)` is the returned pair: note the source
returns the `PlainMessage` built from the full buffered bytes together
with whatever `err` the verification step set. -/
def decryptWithSessionKeyAndContext
    (decryptStream : Except String MessageDetails)
    (verifyKeyRing : Option KeyRing)
    (verifyDetails : MessageDetails → KeyRing → Option SignatureError) :
    Option PlainMessage × Option PGPError :=
  match decryptStream with
  | .error e => (none, some (.message e))
  | .ok md =>
    match md.UnverifiedBody with
    | .error e =>
      (none, some (.message ("gopenpgp: error in reading message body: " ++ e)))
    | .ok data =>
      let err : Option PGPError :=
        match verifyKeyRing with
        | some kr => (verifyDetails md kr).map .signature
        | none => none
      (some { Data := data,
              IsUTF8 := md.LiteralData.IsUTF8,
              Filename := md.LiteralData.FileName,
              ModTime := (md.LiteralData.Time : Int) }, err)

/-- `SessionKey.DecryptAndVerify` of `sessionkey.go`: forwards to
`decryptWithSessionKeyAndContext` with a nil verification context (the
context only feeds the abstract `verifyDetails` step). -/
def SessionKey.DecryptAndVerify (_sk : SessionKey)
    (decryptStream : Except String MessageDetails)
    (verifyKeyRing : Option KeyRing)
    (verifyDetails : MessageDetails → KeyRing → Option SignatureError) :
    Option PlainMessage × Option PGPError :=
  decryptWithSessionKeyAndContext decryptStream verifyKeyRing verifyDetails

/-- `SessionKey.DecryptAndVerifyWithContext` of `sessionkey.go`:
forwards to `decryptWithSessionKeyAndContext` with the caller's
verification context (folded into the abstract `verifyDetails` step). -/
def SessionKey.DecryptAndVerifyWithContext (_sk : SessionKey)
    (decryptStream : Except String MessageDetails)
    (verifyKeyRing : Option KeyRing)
    (verifyDetails : MessageDetails → KeyRing → Option SignatureError) :
    Option PlainMessage × Option PGPError :=
  decryptWithSessionKeyAndContext decryptStream verifyKeyRing verifyDetails

/-- A symmetrically encrypted data packet, as produced by the engine's
session-key encryption: the payload is recoverable exactly with the
session key it was sealed under (ideal-cipher view of the engine). -/
structure DataPacket where
  sealedKey : List Nat
  payload : List Nat
  literal : LiteralDataInfo
deriving DecidableEq

/-- Modelled from the spec: `encryptStreamWithSessionKey` (code of this
repository not under `src`).  Per §4.5 it constructs a streaming
encryption pipeline seeded with the session key; a key invalid for its
declared algorithm cannot seed the cipher (hard error), and a valid key
seals the message bytes and literal metadata into a data packet. -/
def encryptStreamWithSessionKey (sk : SessionKey) (message : PlainMessage) :
    Except String DataPacket :=
  match sk.checkSize with
  | some _ => .error "gopenpgp: invalid session key"
  | none =>
    .ok { sealedKey := sk.Key,
          payload := message.Data,
          literal := ⟨message.IsUTF8, message.Filename, message.ModTime.toNat % 2 ^ 32⟩ }

/-- Modelled from the spec: `decryptStreamWithSessionKey` (code of this
repository not under `src`).  Per §4.5/§4.6 it constructs a streaming
decryption pipeline from the key; decryption with the sealing key
recovers the payload, any other key fails the integrity check (ideal
cipher), surfaced as a hard error. -/
def decryptStreamWithSessionKey (sk : SessionKey) (p : DataPacket) :
    Except String MessageDetails :=
  match sk.checkSize with
  | some _ => .error "gopenpgp: invalid session key"
  | none =>
    if sk.Key = p.sealedKey then
      .ok { UnverifiedBody := .ok p.payload, LiteralData := p.literal }
    else .error "gopenpgp: wrong session key"

/-- `encryptWithSessionKey` of `sessionkey.go`, on the unsigned path
(`signKeyRing = nil`): builds the streaming encryption pipeline over a
buffer, writes the message bytes, closes the writer, and returns the
buffered encrypted bytes — i.e. exactly the packet the stream
produces. -/
def encryptWithSessionKey (message : PlainMessage) (sk : SessionKey) :
    Except String DataPacket :=
  encryptStreamWithSessionKey sk message

/-- `SessionKey.Encrypt` of `sessionkey.go`. -/
def SessionKey.Encrypt (sk : SessionKey) (message : PlainMessage) :
    Except String DataPacket :=
  encryptWithSessionKey message sk

/-- `SessionKey.Decrypt` of `sessionkey.go`: `DecryptAndVerify` with a
nil verification key ring. -/
def SessionKey.Decrypt (sk : SessionKey) (p : DataPacket) :
    Option PlainMessage × Option PGPError :=
  sk.DecryptAndVerify (decryptStreamWithSessionKey sk p) none (fun _ _ => none)

/-- Signature types of the engine (`packet.SigType*`): binary (0x00),
text (0x01) with canonicalized-line-ending semantics, or another code. -/
inductive SigType
  | binary
  | text
  | other (code : Nat)
deriving DecidableEq

/-- A parsed signature candidate (`packet.VerifiableSignature`), of which
only the signature type is inspected by the code under verification. -/
structure SignatureCandidate where
  sigType : SigType
deriving DecidableEq

/-- What the engine returns from `openpgp.ReadMessage` /
`openpgp.VerifyDetachedSignatureReader`: the bytes the unverified-body
reader will deliver, and the parsed signature candidates. -/
structure EngineMessageDetails where
  body : List Nat
  candidates : List SignatureCandidate

/-- The engine read-config (`packet.Config`) as set up by the reader
constructors: whether `config.Time` was set, the clock stored there (a
function of a sample counter, so constancy is expressible), and the set
of known critical notation names. -/
structure PacketConfig where
  timeSet : Bool
  time : Nat → Int
  knownNotations : List String

/-- A verification context: a required critical notation value. -/
structure VerificationContext where
  value : String
deriving DecidableEq

/-- `VerifyDataReader` as constructed in the verification-handle file:
the bytes its exposed reader delivers (after the optional
canonicalization filter), the signature candidates, whether the
sanitization filter was interposed, the frozen verification timestamp,
the clock pinned into the engine read-config, the time-check toggle, the
finalized flag, and the context. -/
structure VerifyDataReader where
  body : List Nat
  candidates : List SignatureCandidate
  sanitized : Bool
  keyRing : KeyRing
  verifyTime : Int
  configTime : Nat → Int
  disableVerifyTimeCheck : Bool
  finalized : Bool
  verificationContext : Option VerificationContext

/-- Modelled from the spec: the line-ending canonicalization filter
`internal.NewSanitizeReader` (code of this repository not under `src`).
Per §4.2/§8 it canonicalizes line endings so that a CRLF-terminated
stream and the corresponding LF-only stream verify alike: each CR-LF
pair is rewritten to a lone LF. -/
def sanitizeBytes : List Nat → List Nat
  | [] => []
  | [b] => [b]
  | b :: c :: rest =>
    if b = 13 ∧ c = 10 then 10 :: sanitizeBytes rest
    else b :: sanitizeBytes (c :: rest)

/-- Rewrite every LF of a byte stream into a CR-LF pair (the CRLF
version of an LF-only text). -/
def toCRLF : List Nat → List Nat
  | [] => []
  | b :: rest => if b = 10 then 13 :: 10 :: toCRLF rest else b :: toCRLF rest

/-- `verifyingDetachedReader` of the verification-handle file (shared by
the handle path and the session-key decrypt-and-verify path), with a nil
incoming config (the case exercised by both callers, which builds a
fresh `packet.Config`).

`engine` is `openpgp.VerifyDetachedSignatureReader` as a function of the
read-config the constructor builds; `clock` is the wall clock as a
function of the sample counter `sampleIdx`, and the second component of
the result is the counter after construction — the constructor samples
the clock exactly once (`verifyTime := clock().Unix()`), pins the
constant clock `NewConstantClock(verifyTime)` into `config.Time`, and
interposes the sanitization filter exactly when the first signature
candidate has the text type. -/
def verifyingDetachedReader
    (engine : PacketConfig → Except String EngineMessageDetails)
    (verifyKeyRing : KeyRing)
    (verificationContext : Option VerificationContext)
    (disableVerifyTimeCheck : Bool)
    (clock : Nat → Int) (sampleIdx : Nat) :
    Except String VerifyDataReader × Nat :=
  let verifyTime := clock sampleIdx
  let config : PacketConfig :=
    { timeSet := true,
      time := fun _ => verifyTime,
      knownNotations :=
        if verificationContext.isSome then [constants.SignatureContextName] else [] }
  let res : Except String VerifyDataReader :=
    match engine config with
    | .error e => .error ("gopenpgp: verify signature reader failed: " ++ e)
    | .ok md =>
      let sanitizeApplied : Bool :=
        match md.candidates with
        | c :: _ => c.sigType = SigType.text
        | [] => false
      .ok { body := if sanitizeApplied then sanitizeBytes md.body else md.body,
            candidates := md.candidates,
            sanitized := sanitizeApplied,
            keyRing := verifyKeyRing,
            verifyTime := verifyTime,
            configTime := config.time,
            disableVerifyTimeCheck := disableVerifyTimeCheck,
            finalized := false,
            verificationContext := verificationContext }
  (res, sampleIdx + 1)

/-- `verifyHandle` of the verification-handle file: key ring, optional
context, time-check toggle.  Its clock is passed to the reader
constructors explicitly as a sampled clock. -/
structure verifyHandle where
  VerifyKeyRing : KeyRing
  VerificationContext : Option VerificationContext
  DisableVerifyTimeCheck : Bool

/-- `verifyHandle.verifyingReader` (inline path) of the
verification-handle file: samples the handle clock exactly once, pins
the constant clock into the read-config, calls `openpgp.ReadMessage`
(the `engine` parameter), and wraps the unverified body unfiltered. -/
def verifyHandle.verifyingReader (vh : verifyHandle)
    (engine : PacketConfig → Except String EngineMessageDetails)
    (clock : Nat → Int) (sampleIdx : Nat) :
    Except String VerifyDataReader × Nat :=
  let verifyTime := clock sampleIdx
  let config : PacketConfig :=
    { timeSet := true,
      time := fun _ => verifyTime,
      knownNotations :=
        if vh.VerificationContext.isSome then [constants.SignatureContextName] else [] }
  let res : Except String VerifyDataReader :=
    match engine config with
    | .error e => .error ("gopenpgp: initialize signature reader failed: " ++ e)
    | .ok md =>
      .ok { body := md.body,
            candidates := md.candidates,
            sanitized := false,
            keyRing := vh.VerifyKeyRing,
            verifyTime := verifyTime,
            configTime := config.time,
            disableVerifyTimeCheck := vh.DisableVerifyTimeCheck,
            finalized := false,
            verificationContext := vh.VerificationContext }
  (res, sampleIdx + 1)

/-- A decoded cleartext block (`clearsign.Block`): the decoded plaintext
section, the canonicalized bytes the signature covers (`block.Bytes`),
and the armored detached-signature section's body (reading it may
fail). -/
structure ClearsignBlock where
  Plaintext : List Nat
  Bytes : List Nat
  ArmoredSignatureBody : Except String (List Nat)

/-- Modelled from the spec: `clearsign.Decode` (external engine,
specified at the boundary).  Per §4.4 the framing convention appends
exactly one extra line terminator (one LF byte) to the original signed
text in the decoded plaintext; the signature covers the canonicalized
(CRLF) form of the text. -/
def clearsignDecode (original : List Nat) (signatureBytes : List Nat) : ClearsignBlock :=
  { Plaintext := original ++ [10],
    Bytes := toCRLF original,
    ArmoredSignatureBody := .ok signatureBytes }

/-- `VerifyResult`: the structured signature outcome (`none` =
success). -/
structure VerifyResult where
  outcome : Option SignatureError
deriving DecidableEq

/-- `VerifyCleartextResult`: outcome plus the exposed cleartext. -/
structure VerifyCleartextResult where
  VerifyResult : VerifyResult
  cleartext : List Nat
deriving DecidableEq

/-- Outcome of a Go call that can return a value, return an error, or
panic at runtime (out-of-range slice). -/
inductive GoResult (α : Type)
  | ok (a : α)
  | goError (s : String)
  | panicked (s : String)
deriving DecidableEq

/-- Go slice expression `xs[:hi]`: defined only for `0 ≤ hi ≤ len(xs)`,
a bound outside that range panics (`none`). -/
def goSliceUpTo (xs : List Nat) (hi : Int) : Option (List Nat) :=
  if 0 ≤ hi ∧ hi ≤ (xs.length : Int) then some (xs.take hi.toNat) else none

/-- `verifyHandle.verifyCleartext` of the verification-handle file.

`decodeResult` is what `clearsign.Decode` returns (`none` = nil block);
`verifyDetachedSignature` is the detached-verification step
(`vh.verifyDetachedSignature`, driven over `block.Bytes` and the
signature; an `.error` is its hard non-signature error).  The exposed
cleartext is `block.Plaintext[:len(block.Plaintext)-1]`, which panics
when the decoded plaintext is empty. -/
def verifyHandle.verifyCleartext
    (decodeResult : Option ClearsignBlock)
    (verifyDetachedSignature : List Nat → List Nat → Except String VerifyResult) :
    GoResult VerifyCleartextResult :=
  match decodeResult with
  | none => .goError "gopenpgp: not able to parse cleartext message"
  | some block =>
    match block.ArmoredSignatureBody with
    | .error _ => .goError "gopenpgp: signature not parsable in cleartext"
    | .ok signature =>
      match verifyDetachedSignature block.Bytes signature with
      | .error _ => .goError "gopenpgp: cleartext verify failed with non-signature error"
      | .ok result =>
        match goSliceUpTo block.Plaintext ((block.Plaintext.length : Int) - 1) with
        | none => .panicked "runtime error: slice bounds out of range"
        | some c => .ok ⟨result, c⟩

/-- C6: in non-implicit (non-V6) mode `checkSize` succeeds iff the
algorithm is a registry entry and the key length equals that algorithm's
key size exactly; a key whose length differs (in particular by ±1 byte)
is rejected with the hard size-mismatch error; in implicit (V6) mode it
succeeds iff the key is non-empty. -/
theorem checkSize_exact_key_size (sk : SessionKey) :
    (sk.V6 = false →
      (sk.checkSize = none ↔
        ∃ cf, symKeyAlgosLookup sk.Algo = some cf ∧
          sk.Key.length = CipherFunction.keySize cf))
    ∧ (sk.V6 = false → ∀ cf, symKeyAlgosLookup sk.Algo = some cf →
        (sk.Key.length = CipherFunction.keySize cf + 1 ∨
          sk.Key.length + 1 = CipherFunction.keySize cf) →
        sk.checkSize = some CheckSizeError.wrongKeySize)
    ∧ (sk.V6 = true → (sk.checkSize = none ↔ sk.Key.length ≠ 0)) := by
  refine ⟨?_, ?_, ?_⟩
  · intro h
    simp only [SessionKey.checkSize, h, Bool.false_eq_true, if_false]
    cases hfind : symKeyAlgosLookup sk.Algo with
    | none => simp
    | some cf =>
      simp only []
      constructor
      · intro hok
        refine ⟨cf, rfl, ?_⟩
        by_contra hne
        rw [if_pos (fun heq => hne heq.symm)] at hok
        exact Option.noConfusion hok
      · rintro ⟨cf', hcf', hlen⟩
        have hcc : cf = cf' := by injection hcf'
        subst hcc
        rw [if_neg (by omega : ¬(CipherFunction.keySize cf ≠ sk.Key.length))]
  · intro h cf hcf hlen
    simp only [SessionKey.checkSize, h, Bool.false_eq_true, if_false, hcf]
    rw [if_pos]
    omega
  · intro h
    simp only [SessionKey.checkSize, h, if_true]
    constructor
    · intro hok
      by_contra hz
      rw [if_pos hz] at hok
      exact Option.noConfusion hok
    · intro hne
      rw [if_neg hne]

/-- Witness for C6: AES-256 with a 32-byte key passes `checkSize`, its
31- and 33-byte variants are rejected with the size error, and a V6 key
passes iff non-empty — at concrete inputs. -/
theorem checkSize_exact_key_size_witness :
    ((SessionKey.mk false (List.replicate 32 0) constants.AES256).V6 = false) ∧
    (SessionKey.mk false (List.replicate 32 0) constants.AES256).checkSize = none ∧
    (SessionKey.mk false (List.replicate 33 0) constants.AES256).checkSize =
      some CheckSizeError.wrongKeySize ∧
    (SessionKey.mk false (List.replicate 31 0) constants.AES256).checkSize =
      some CheckSizeError.wrongKeySize ∧
    (SessionKey.mk true [1] "").checkSize = none := by
  refine ⟨rfl, ?_, ?_, ?_, ?_⟩
  · exact ((checkSize_exact_key_size
      (SessionKey.mk false (List.replicate 32 0) constants.AES256)).1 rfl).mpr
      ⟨9, by decide, by decide⟩
  · exact (checkSize_exact_key_size
      (SessionKey.mk false (List.replicate 33 0) constants.AES256)).2.1 rfl 9
      (by decide) (by decide)
  · exact (checkSize_exact_key_size
      (SessionKey.mk false (List.replicate 31 0) constants.AES256)).2.1 rfl 9
      (by decide) (by decide)
  · exact ((checkSize_exact_key_size (SessionKey.mk true [1] "")).2.2 rfl).mpr
      (by decide)

/-- C7: for every iteration order of the registry map, `getAlgo` returns
the implicit/empty identifier for the zero code, an identifier that the
registry maps to the code when the code is a registry entry, and the
AES-256 identifier when the code is nonzero and not in the registry. -/
theorem getAlgo_reverse_lookup (order : List (String × CipherFunction))
    (cipher : CipherFunction) (hperm : order.Perm symKeyAlgos) :
    (cipher = 0 → getAlgo order cipher = "")
    ∧ (cipher ≠ 0 → (∃ k, (k, cipher) ∈ symKeyAlgos) →
        (getAlgo order cipher, cipher) ∈ symKeyAlgos)
    ∧ (cipher ≠ 0 → (∀ k, (k, cipher) ∉ symKeyAlgos) →
        getAlgo order cipher = constants.AES256) := by
  refine ⟨?_, ?_, ?_⟩
  · intro h
    simp [getAlgo, h]
  · rintro h ⟨k, hk⟩
    have hkord : (k, cipher) ∈ order := hperm.mem_iff.mpr hk
    cases hfind : order.find? (fun p => p.2 == cipher) with
    | none =>
      exfalso
      have := List.find?_eq_none.mp hfind (k, cipher) hkord
      simp at this
    | some p =>
      have hp2 : p.2 = cipher := by
        have := List.find?_some hfind
        simpa using this
      have hpord : p ∈ order := List.mem_of_find?_eq_some hfind
      have hpsym : p ∈ symKeyAlgos := hperm.mem_iff.mp hpord
      have : getAlgo order cipher = p.1 := by
        simp [getAlgo, h, hfind]
      rw [this]
      have hpeq : (p.1, cipher) = p := by rw [← hp2]
      rw [hpeq]
      exact hpsym
  · intro h habs
    cases hfind : order.find? (fun p => p.2 == cipher) with
    | none => simp [getAlgo, h, hfind]
    | some p =>
      exfalso
      have hp2 : p.2 = cipher := by
        have := List.find?_some hfind
        simpa using this
      have hpsym : p ∈ symKeyAlgos := hperm.mem_iff.mp (List.mem_of_find?_eq_some hfind)
      apply habs p.1
      have hpeq : (p.1, cipher) = p := by rw [← hp2]
      rw [hpeq]
      exact hpsym

/-- C1: for every session key, every ciphertext data packet whose
decryption succeeds (the engine returns message details and the body
drains cleanly), and every non-nil verification key ring,
`DecryptAndVerify` returns the full decrypted plaintext bytes paired
with exactly the error the embedded-signature verification step
produced — the plaintext is never discarded or replaced on a signature
failure — and `DecryptAndVerifyWithContext` behaves identically. -/
theorem decryptAndVerify_keeps_plaintext_on_signature_failure
    (sk : SessionKey) (decryptStream : Except String MessageDetails)
    (md : MessageDetails) (data : List Nat) (kr : KeyRing)
    (verifyDetails : MessageDetails → KeyRing → Option SignatureError)
    (hdec : decryptStream = .ok md) (hbody : md.UnverifiedBody = .ok data) :
    sk.DecryptAndVerify decryptStream (some kr) verifyDetails =
      (some { Data := data, IsUTF8 := md.LiteralData.IsUTF8,
              Filename := md.LiteralData.FileName,
              ModTime := (md.LiteralData.Time : Int) },
       (verifyDetails md kr).map PGPError.signature) ∧
    sk.DecryptAndVerifyWithContext decryptStream (some kr) verifyDetails =
      sk.DecryptAndVerify decryptStream (some kr) verifyDetails := by
  subst hdec
  constructor
  · simp [SessionKey.DecryptAndVerify, decryptWithSessionKeyAndContext, hbody]
  · rfl

/-- Witness for C1: a packet that decrypts to "hi" with a key ring whose
signer key is absent (verification yields NoVerifier) returns the full
plaintext together with the NoVerifier outcome. -/
theorem decryptAndVerify_keeps_plaintext_witness :
    ((Except.ok (MessageDetails.mk (.ok [104, 105]) ⟨false, "f", 42⟩) :
        Except String MessageDetails) =
      .ok (MessageDetails.mk (.ok [104, 105]) ⟨false, "f", 42⟩)) ∧
    (SessionKey.mk false (List.replicate 32 0) constants.AES256).DecryptAndVerify
        (.ok (MessageDetails.mk (.ok [104, 105]) ⟨false, "f", 42⟩))
        (some (KeyRing.mk []))
        (fun _ _ => some SignatureError.noVerifier) =
      (some { Data := [104, 105], IsUTF8 := false, Filename := "f", ModTime := (42 : Int) },
       some (PGPError.signature SignatureError.noVerifier)) := by
  refine ⟨rfl, ?_⟩
  exact (decryptAndVerify_keeps_plaintext_on_signature_failure
    (SessionKey.mk false (List.replicate 32 0) constants.AES256)
    (.ok (MessageDetails.mk (.ok [104, 105]) ⟨false, "f", 42⟩))
    (MessageDetails.mk (.ok [104, 105]) ⟨false, "f", 42⟩)
    [104, 105] (KeyRing.mk [])
    (fun _ _ => some SignatureError.noVerifier) rfl rfl).1

/-- C5: for every session key valid for its declared algorithm
(`checkSize` succeeds, i.e. the key length matches the algorithm's key
size) and every plaintext message, `Decrypt` applied to the output of
`Encrypt` with the same session key succeeds with no error and returns
the original plaintext bytes. -/
theorem decrypt_encrypt_roundtrip (sk : SessionKey) (message : PlainMessage)
    (hvalid : sk.checkSize = none) :
    ∃ p, sk.Encrypt message = .ok p ∧
      (sk.Decrypt p).2 = none ∧
      ∃ pm, (sk.Decrypt p).1 = some pm ∧ pm.Data = message.Data := by
  refine ⟨{ sealedKey := sk.Key, payload := message.Data,
            literal := ⟨message.IsUTF8, message.Filename,
              message.ModTime.toNat % 2 ^ 32⟩ }, ?_, ?_, ?_⟩
  · simp [SessionKey.Encrypt, encryptWithSessionKey, encryptStreamWithSessionKey, hvalid]
  · simp [SessionKey.Decrypt, SessionKey.DecryptAndVerify,
      decryptWithSessionKeyAndContext, decryptStreamWithSessionKey, hvalid]
  · refine ⟨PlainMessage.mk message.Data message.IsUTF8 message.Filename
        ((message.ModTime.toNat % 2 ^ 32 : Nat) : Int), ?_, rfl⟩
    simp [SessionKey.Decrypt, SessionKey.DecryptAndVerify,
      decryptWithSessionKeyAndContext, decryptStreamWithSessionKey, hvalid]

/-- Witness for C5: the spec's example scenario — a 32-zero-byte AES-256
key and plaintext "hello" — round-trips. -/
theorem decrypt_encrypt_roundtrip_witness :
    (SessionKey.mk false (List.replicate 32 0) constants.AES256).checkSize = none ∧
    ∃ p, (SessionKey.mk false (List.replicate 32 0) constants.AES256).Encrypt
        (PlainMessage.mk [104, 101, 108, 108, 111] false "" 0) = .ok p ∧
      ((SessionKey.mk false (List.replicate 32 0) constants.AES256).Decrypt p).2 = none ∧
      ∃ pm, ((SessionKey.mk false (List.replicate 32 0) constants.AES256).Decrypt p).1 =
          some pm ∧
        pm.Data = [104, 101, 108, 108, 111] := by
  refine ⟨by rfl, ?_⟩
  exact decrypt_encrypt_roundtrip
    (SessionKey.mk false (List.replicate 32 0) constants.AES256)
    (PlainMessage.mk [104, 101, 108, 108, 111] false "" 0) (by rfl)

theorem checkReader_closedNow_iff_eof (mdcResult : Option String) (r : BodyReadResult) :
    (checkReader.Read mdcResult r).closedNow = (r.err == some ReadErr.eof) := by
  cases hr : r.err with
  | none => simp [checkReader.Read, hr]
  | some e =>
    cases e with
    | eof => cases mdcResult <;> simp [checkReader.Read, hr]
    | ioError s => simp [checkReader.Read, hr]

theorem checkReader_close_count_eq (mdcResult : Option String)
    (trace : List BodyReadResult) :
    checkReader.runCloseCount mdcResult trace =
      trace.countP (fun r => r.err == some ReadErr.eof) := by
  unfold checkReader.runCloseCount
  induction trace with
  | nil => rfl
  | cons r rs ih =>
    rw [List.countP_cons, List.countP_cons, ih, checkReader_closedNow_iff_eof]

/-- C2 counterexample: `checkReader` keeps no "already finalized" flag,
so a sequence of two `Read` calls in each of which the inner body reader
reports clean end-of-stream invokes the integrity finalization
(`cr.decrypted.Close()`) twice — refuting "no sequence of Read calls
causes the finalization to run a second time" at this concrete
two-call sequence. -/
theorem checkReader_close_runs_twice :
    checkReader.runCloseCount none
      [BodyReadResult.mk [] (some ReadErr.eof),
       BodyReadResult.mk [] (some ReadErr.eof)] = 2 := by
  rfl

/-- C2 (amended): the integrity finalization is invoked exactly on those
`Read` calls in which the inner body reader reports clean end-of-stream;
hence it runs exactly once for every sequence of `Read` calls in which
clean end-of-stream is reported exactly once — in particular when the
consumer performs no further reads after the first end-of-stream — but a
consumer that keeps calling `Read` into repeated end-of-stream triggers
it again. -/
theorem checkReader_close_once_per_clean_eof (mdcResult : Option String)
    (trace : List BodyReadResult)
    (h : trace.countP (fun r => r.err == some ReadErr.eof) = 1) :
    checkReader.runCloseCount mdcResult trace = 1 ∧
    (∀ r, (checkReader.Read mdcResult r).closedNow = true ↔
      r.err = some ReadErr.eof) := by
  constructor
  · rw [checkReader_close_count_eq, h]
  · intro r
    rw [checkReader_closedNow_iff_eof]
    exact beq_iff_eq

/-- Witness for C2 (amended): a one-call trace ending in clean
end-of-stream finalizes exactly once. -/
theorem checkReader_close_once_per_clean_eof_witness :
    ([BodyReadResult.mk [104] none,
      BodyReadResult.mk [] (some ReadErr.eof)].countP
        (fun r => r.err == some ReadErr.eof) = 1) ∧
    checkReader.runCloseCount none
      [BodyReadResult.mk [104] none, BodyReadResult.mk [] (some ReadErr.eof)] = 1 := by
  refine ⟨by rfl, ?_⟩
  exact (checkReader_close_once_per_clean_eof none
    [BodyReadResult.mk [104] none, BodyReadResult.mk [] (some ReadErr.eof)]
    (by rfl)).1

/-- C3: on clean end-of-stream of the inner reader, `checkReader.Read`
triggers the integrity finalization and returns a finalization failure
as a hard (MDC) error in place of end-of-stream, while a successful
finalization yields end-of-stream; any other inner read error is
reclassified as the structural parsing error kind; otherwise the bytes
read are forwarded unchanged with no error. -/
theorem checkReader_Read_cases (mdcResult : Option String) (r : BodyReadResult) :
    (r.err = some ReadErr.eof →
      (mdcResult = none →
        checkReader.Read mdcResult r =
          ⟨r.data.length, r.data, some CheckReadErr.eof, true⟩)
      ∧ ∀ e, mdcResult = some e →
        checkReader.Read mdcResult r =
          ⟨r.data.length, r.data, some (CheckReadErr.mdcError e), true⟩)
    ∧ (∀ s, r.err = some (ReadErr.ioError s) →
        checkReader.Read mdcResult r =
          ⟨r.data.length, r.data,
           some (CheckReadErr.structuralError "parsing error"), false⟩)
    ∧ (r.err = none →
        checkReader.Read mdcResult r = ⟨r.data.length, r.data, none, false⟩) := by
  refine ⟨?_, ?_, ?_⟩
  · intro heof
    constructor
    · intro hm
      subst hm
      simp [checkReader.Read, heof]
    · intro e hm
      subst hm
      simp [checkReader.Read, heof]
  · intro s hio
    simp [checkReader.Read, hio]
  · intro hnone
    simp [checkReader.Read, hnone]

/-- Witness for C3: the three cases evaluated at concrete inputs — a
failing finalization replaces end-of-stream by the MDC error, an inner
I/O failure becomes the structural parsing error, and plain bytes are
forwarded unchanged. -/
theorem checkReader_Read_cases_witness :
    ((BodyReadResult.mk [] (some ReadErr.eof)).err = some ReadErr.eof ∧
      checkReader.Read (some "mdc failed") (BodyReadResult.mk [] (some ReadErr.eof)) =
        ⟨0, [], some (CheckReadErr.mdcError "mdc failed"), true⟩) ∧
    checkReader.Read none (BodyReadResult.mk [7] (some (ReadErr.ioError "broken"))) =
      ⟨1, [7], some (CheckReadErr.structuralError "parsing error"), false⟩ ∧
    checkReader.Read none (BodyReadResult.mk [1, 2] none) = ⟨2, [1, 2], none, false⟩ := by
  refine ⟨⟨rfl, ?_⟩, ?_, ?_⟩
  · exact ((checkReader_Read_cases (some "mdc failed")
      (BodyReadResult.mk [] (some ReadErr.eof))).1 rfl).2 "mdc failed" rfl
  · exact (checkReader_Read_cases none
      (BodyReadResult.mk [7] (some (ReadErr.ioError "broken")))).2.1 "broken" rfl
  · exact (checkReader_Read_cases none (BodyReadResult.mk [1, 2] none)).2.2 rfl

/-- Witness for C7: at the registry's own order, code 0 maps to the
empty identifier, code 2 maps to a registered 3DES identifier, and the
unknown nonzero code 4 maps to the AES-256 identifier. -/
theorem getAlgo_reverse_lookup_witness :
    symKeyAlgos.Perm symKeyAlgos ∧
    getAlgo symKeyAlgos 0 = "" ∧
    (getAlgo symKeyAlgos 2, 2) ∈ symKeyAlgos ∧
    getAlgo symKeyAlgos 4 = constants.AES256 := by
  refine ⟨List.Perm.refl _, ?_, ?_, ?_⟩
  · exact (getAlgo_reverse_lookup symKeyAlgos 0 (List.Perm.refl _)).1 rfl
  · exact (getAlgo_reverse_lookup symKeyAlgos 2 (List.Perm.refl _)).2.1
      (by decide) ⟨constants.ThreeDES, by decide⟩
  · exact (getAlgo_reverse_lookup symKeyAlgos 4 (List.Perm.refl _)).2.2
      (by decide)
      (by
        intro k hk
        simp [symKeyAlgos, constants.ThreeDES, constants.TripleDES, constants.CAST5,
          constants.AES128, constants.AES192, constants.AES256] at hk)

theorem sanitizeBytes_crlf (t : List Nat) :
    sanitizeBytes (13 :: 10 :: t) = 10 :: sanitizeBytes t := by
  simp [sanitizeBytes]

theorem sanitizeBytes_cons_ne (b : Nat) (t : List Nat) (hb : b ≠ 13) :
    sanitizeBytes (b :: t) = b :: sanitizeBytes t := by
  cases t with
  | nil => rfl
  | cons c rest =>
    have hunf : sanitizeBytes (b :: c :: rest) =
        if b = 13 ∧ c = 10 then 10 :: sanitizeBytes rest
        else b :: sanitizeBytes (c :: rest) := rfl
    rw [hunf, if_neg (by tauto)]

theorem sanitizeBytes_no_cr (s : List Nat) (h : 13 ∉ s) : sanitizeBytes s = s := by
  induction s with
  | nil => rfl
  | cons b rest ih =>
    have hb : b ≠ 13 := fun hbe => h (hbe ▸ List.mem_cons_self b rest)
    rw [sanitizeBytes_cons_ne b rest hb, ih (fun hm => h (List.mem_cons_of_mem b hm))]

theorem sanitizeBytes_toCRLF (s : List Nat) (h : 13 ∉ s) :
    sanitizeBytes (toCRLF s) = sanitizeBytes s := by
  rw [sanitizeBytes_no_cr s h]
  induction s with
  | nil => rfl
  | cons b rest ih =>
    have hb : b ≠ 13 := fun hbe => h (hbe ▸ List.mem_cons_self b rest)
    have hrest : 13 ∉ rest := fun hm => h (List.mem_cons_of_mem b hm)
    by_cases hb10 : b = 10
    · subst hb10
      show sanitizeBytes (toCRLF (10 :: rest)) = 10 :: rest
      have : toCRLF (10 :: rest) = 13 :: 10 :: toCRLF rest := by simp [toCRLF]
      rw [this, sanitizeBytes_crlf, ih hrest]
    · have : toCRLF (b :: rest) = b :: toCRLF rest := by simp [toCRLF, hb10]
      rw [this, sanitizeBytes_cons_ne b (toCRLF rest) hb, ih hrest]

/-- C4 counterexample: the clock is sampled once per reader
construction, not once per session.  With a session clock that advances
between constructions (`fun n => n`), the first reader built from the
session freezes instant 0, and a second reader built from the same
session (at the sample counter the first construction returned) freezes
instant 1 — so two readers of one session are not determined by a single
per-session frozen instant, refuting "sampled exactly once per session". -/
theorem two_readers_one_session_different_instants :
    ((verifyingDetachedReader (fun _ => .ok (EngineMessageDetails.mk [] []))
        (KeyRing.mk []) none false (fun n => (n : Int)) 0).1.map
          VerifyDataReader.verifyTime = Except.ok 0) ∧
    ((verifyingDetachedReader (fun _ => .ok (EngineMessageDetails.mk [] []))
        (KeyRing.mk []) none false (fun n => (n : Int))
        ((verifyingDetachedReader (fun _ => .ok (EngineMessageDetails.mk [] []))
            (KeyRing.mk []) none false (fun n => (n : Int)) 0).2)).1.map
          VerifyDataReader.verifyTime = Except.ok 1) ∧
    (0 : Int) ≠ 1 := by
  refine ⟨rfl, rfl, by decide⟩

/-- C4 (amended): each reader construction — detached
(`verifyingDetachedReader`) and inline (`verifyHandle.verifyingReader`)
— samples the clock exactly once (the sample counter advances by exactly
one), pins that single instant into the engine read-config as a constant
clock, and stores it as the reader's frozen verification timestamp; the
constructed reader is identical for any two clocks that agree at the
construction sample, i.e. nothing about it — and hence no verification
outcome derived from it, however long the stream is read — depends on
any later clock value. -/
theorem verification_time_frozen_at_construction
    (engine : PacketConfig → Except String EngineMessageDetails)
    (kr : KeyRing) (vctx : Option VerificationContext) (disable : Bool)
    (c1 c2 : Nat → Int) (i j : Nat) (hsame : c1 i = c2 j) :
    ((verifyingDetachedReader engine kr vctx disable c1 i).2 = i + 1)
    ∧ (verifyingDetachedReader engine kr vctx disable c1 i).1 =
        (verifyingDetachedReader engine kr vctx disable c2 j).1
    ∧ (∀ rd, (verifyingDetachedReader engine kr vctx disable c1 i).1 = .ok rd →
        rd.verifyTime = c1 i ∧ ∀ m n, rd.configTime m = rd.configTime n)
    ∧ ((verifyHandle.verifyingReader ⟨kr, vctx, disable⟩ engine c1 i).2 = i + 1)
    ∧ (verifyHandle.verifyingReader ⟨kr, vctx, disable⟩ engine c1 i).1 =
        (verifyHandle.verifyingReader ⟨kr, vctx, disable⟩ engine c2 j).1
    ∧ (∀ rd, (verifyHandle.verifyingReader ⟨kr, vctx, disable⟩ engine c1 i).1 = .ok rd →
        rd.verifyTime = c1 i ∧ ∀ m n, rd.configTime m = rd.configTime n) := by
  refine ⟨rfl, ?_, ?_, rfl, ?_, ?_⟩
  · show (verifyingDetachedReader engine kr vctx disable c1 i).1 =
      (verifyingDetachedReader engine kr vctx disable c2 j).1
    simp only [verifyingDetachedReader]
    rw [← hsame]
  · intro rd hrd
    simp only [verifyingDetachedReader] at hrd
    split at hrd
    · exact absurd hrd (by simp)
    · injection hrd with hrd
      subst hrd
      exact ⟨rfl, fun m n => rfl⟩
  · show (verifyHandle.verifyingReader ⟨kr, vctx, disable⟩ engine c1 i).1 =
      (verifyHandle.verifyingReader ⟨kr, vctx, disable⟩ engine c2 j).1
    simp only [verifyHandle.verifyingReader]
    rw [← hsame]
  · intro rd hrd
    simp only [verifyHandle.verifyingReader] at hrd
    split at hrd
    · exact absurd hrd (by simp)
    · injection hrd with hrd
      subst hrd
      exact ⟨rfl, fun m n => rfl⟩

/-- Witness for C4 (amended): at a concrete constant clock, the detached
construction advances its sample counter by exactly one and yields the
same reader as an unrelated clock that agrees at the construction
sample. -/
theorem verification_time_frozen_witness :
    ((fun _ : Nat => (5 : Int)) 0 = (fun n : Nat => (n + 5 : Int)) 0) ∧
    (verifyingDetachedReader (fun _ => .ok (EngineMessageDetails.mk [] []))
       (KeyRing.mk []) none false (fun _ => (5 : Int)) 0).2 = 0 + 1 ∧
    (verifyingDetachedReader (fun _ => .ok (EngineMessageDetails.mk [] []))
       (KeyRing.mk []) none false (fun _ => (5 : Int)) 0).1 =
      (verifyingDetachedReader (fun _ => .ok (EngineMessageDetails.mk [] []))
       (KeyRing.mk []) none false (fun n => (n + 5 : Int)) 0).1 := by
  refine ⟨by decide, ?_, ?_⟩
  · exact (verification_time_frozen_at_construction
      (fun _ => .ok (EngineMessageDetails.mk [] [])) (KeyRing.mk []) none false
      (fun _ => (5 : Int)) (fun n => (n + 5 : Int)) 0 0 (by decide)).1
  · exact (verification_time_frozen_at_construction
      (fun _ => .ok (EngineMessageDetails.mk [] [])) (KeyRing.mk []) none false
      (fun _ => (5 : Int)) (fun n => (n + 5 : Int)) 0 0 (by decide)).2.1

/-- C8 counterexample: the source checks only
`md.SignatureCandidates[0].SigType`.  At a message whose first signature
candidate is binary while its second carries the text type, the
canonicalization filter is not interposed (the exposed reader delivers
the raw bytes, CR-LF included) even though a signature candidate carries
the text type — refuting "regardless of which signature candidate
carries the text type". -/
theorem sanitize_skipped_when_text_is_second_candidate :
    ((verifyingDetachedReader
        (fun _ => .ok (EngineMessageDetails.mk [72, 13, 10]
          [SignatureCandidate.mk SigType.binary, SignatureCandidate.mk SigType.text]))
        (KeyRing.mk []) none false (fun _ => 0) 0).1.map
          VerifyDataReader.sanitized = Except.ok false) ∧
    ((verifyingDetachedReader
        (fun _ => .ok (EngineMessageDetails.mk [72, 13, 10]
          [SignatureCandidate.mk SigType.binary, SignatureCandidate.mk SigType.text]))
        (KeyRing.mk []) none false (fun _ => 0) 0).1.map
          VerifyDataReader.body = Except.ok [72, 13, 10]) ∧
    SignatureCandidate.mk SigType.text ∈
      [SignatureCandidate.mk SigType.binary, SignatureCandidate.mk SigType.text] := by
  refine ⟨rfl, rfl, by decide⟩

/-- C8 (amended): in the detached verification path the line-ending
canonicalization filter is interposed exactly when the first signature
candidate's resolved type is "text" (not when only a later candidate
carries the text type): then the exposed reader delivers the
canonicalized bytes, otherwise the raw bytes; and canonicalization
makes a CRLF-line-ended stream equal to its LF-only original (for
CR-free text), so a text-type detached signature over canonical LF text
still verifies when the supplied stream uses CRLF line endings. -/
theorem sanitize_applied_iff_first_candidate_text
    (md : EngineMessageDetails) (kr : KeyRing) (vctx : Option VerificationContext)
    (disable : Bool) (clock : Nat → Int) (i : Nat) (rd : VerifyDataReader)
    (hok : (verifyingDetachedReader (fun _ => .ok md) kr vctx disable clock i).1 = .ok rd) :
    (rd.sanitized = true ↔ ∃ c cs, md.candidates = c :: cs ∧ c.sigType = SigType.text)
    ∧ (rd.sanitized = true → rd.body = sanitizeBytes md.body)
    ∧ (rd.sanitized = false → rd.body = md.body)
    ∧ (∀ s, 13 ∉ s → sanitizeBytes (toCRLF s) = sanitizeBytes s) := by
  simp only [verifyingDetachedReader] at hok
  injection hok with hok
  subst hok
  cases hc : md.candidates with
  | nil =>
    refine ⟨?_, ?_, ?_, sanitizeBytes_toCRLF⟩
    · simp
    · intro hs
      exact absurd hs (by simp)
    · intro _
      simp
  | cons c cs =>
    by_cases ht : c.sigType = SigType.text
    · refine ⟨?_, ?_, ?_, sanitizeBytes_toCRLF⟩
      · constructor
        · intro _
          exact ⟨c, cs, rfl, ht⟩
        · intro _
          simp [ht]
      · intro _
        simp [ht]
      · intro hs
        exact absurd hs (by simp [ht])
    · refine ⟨?_, ?_, ?_, sanitizeBytes_toCRLF⟩
      · simp [ht]
      · intro hs
        exact absurd hs (by simp [ht])
      · intro _
        simp [ht]

/-- Witness for C8 (amended): at a message whose single (first)
candidate is text-typed and whose bytes are "H\x0d\x0a", the filter is
applied and the exposed reader delivers the canonicalized bytes
"H\x0a". -/
theorem sanitize_applied_iff_first_candidate_text_witness :
    ((verifyingDetachedReader
        (fun _ => .ok (EngineMessageDetails.mk [72, 13, 10]
          [SignatureCandidate.mk SigType.text]))
        (KeyRing.mk []) none false (fun _ => 0) 0).1 =
      .ok { body := sanitizeBytes [72, 13, 10],
            candidates := [SignatureCandidate.mk SigType.text],
            sanitized := true,
            keyRing := KeyRing.mk [],
            verifyTime := 0,
            configTime := fun _ => 0,
            disableVerifyTimeCheck := false,
            finalized := false,
            verificationContext := none }) ∧
    (true = true ↔ ∃ c cs,
      (EngineMessageDetails.mk [72, 13, 10] [SignatureCandidate.mk SigType.text]).candidates =
        c :: cs ∧ c.sigType = SigType.text) ∧
    sanitizeBytes [72, 13, 10] = [72, 10] := by
  refine ⟨rfl, ?_, by rfl⟩
  exact (sanitize_applied_iff_first_candidate_text
    (EngineMessageDetails.mk [72, 13, 10] [SignatureCandidate.mk SigType.text])
    (KeyRing.mk []) none false (fun _ => 0) 0
    { body := sanitizeBytes [72, 13, 10],
      candidates := [SignatureCandidate.mk SigType.text],
      sanitized := true,
      keyRing := KeyRing.mk [],
      verifyTime := 0,
      configTime := fun _ => 0,
      disableVerifyTimeCheck := false,
      finalized := false,
      verificationContext := none } rfl).1

theorem goSliceUpTo_append_one (xs : List Nat) (b : Nat) :
    goSliceUpTo (xs ++ [b]) (((xs ++ [b]).length : Int) - 1) = some xs := by
  have hlen : (xs ++ [b]).length = xs.length + 1 := by simp
  rw [goSliceUpTo, hlen]
  rw [if_pos (by constructor <;> omega)]
  have hcast : (((xs.length + 1 : Nat) : Int) - 1).toNat = xs.length := by omega
  rw [hcast]
  have := List.take_left xs [b]
  rw [this]

/-- C9: for every well-formed cleartext-armored input — the clearsign
decode frames the original signed text with exactly one extra line
terminator, the signature section reads, and detached verification over
the canonical bytes returns a result — the plaintext exposed in the
`VerifyCleartextResult` equals the original signed text: exactly the one
trailing framing terminator is stripped, no more and no fewer bytes. -/
theorem verifyCleartext_strips_exactly_one_terminator
    (original signatureBytes : List Nat)
    (verify : List Nat → List Nat → Except String VerifyResult) (res : VerifyResult)
    (hverify : verify (toCRLF original) signatureBytes = .ok res) :
    verifyHandle.verifyCleartext (some (clearsignDecode original signatureBytes)) verify =
      .ok ⟨res, original⟩ := by
  simp only [verifyHandle.verifyCleartext, clearsignDecode]
  rw [hverify, goSliceUpTo_append_one]

/-- Witness for C9: the signed text "hi" is recovered exactly from its
decoded block (whose plaintext is "hi" plus one LF). -/
theorem verifyCleartext_strips_exactly_one_terminator_witness :
    ((fun _ _ : List Nat => (Except.ok (VerifyResult.mk none) : Except String VerifyResult))
        (toCRLF [104, 105]) [1] = .ok (VerifyResult.mk none)) ∧
    verifyHandle.verifyCleartext (some (clearsignDecode [104, 105] [1]))
        (fun _ _ => .ok (VerifyResult.mk none)) =
      .ok ⟨VerifyResult.mk none, [104, 105]⟩ := by
  refine ⟨rfl, ?_⟩
  exact verifyCleartext_strips_exactly_one_terminator [104, 105] [1]
    (fun _ _ => .ok (VerifyResult.mk none)) (VerifyResult.mk none) rfl

theorem goSliceUpTo_pred_isSome (xs : List Nat) (h : xs ≠ []) :
    ∃ ys, goSliceUpTo xs ((xs.length : Int) - 1) = some ys := by
  have hpos : 0 < xs.length := List.length_pos.mpr h
  refine ⟨xs.take ((xs.length : Int) - 1).toNat, ?_⟩
  rw [goSliceUpTo, if_pos (by constructor <;> omega)]

/-- C10: the cleartext truncation `block.Plaintext[:len(block.Plaintext)-1]`
slices off the last byte unconditionally; the operation is total exactly
under the precondition that the decoded plaintext is non-empty —
`verifyCleartext` never panics on a block with non-empty plaintext,
while for an accepted block (readable signature section, verification
returning a result) whose decoded plaintext has length zero the slice
bound is negative and the call panics. -/
theorem verifyCleartext_slice_total_iff_nonempty
    (block : ClearsignBlock)
    (verify : List Nat → List Nat → Except String VerifyResult) :
    (block.Plaintext ≠ [] →
      ∀ s, verifyHandle.verifyCleartext (some block) verify ≠ .panicked s)
    ∧ (block.Plaintext = [] →
        ((block.Plaintext.length : Int) - 1 < 0 ∧
         ∀ signature res, block.ArmoredSignatureBody = .ok signature →
           verify block.Bytes signature = .ok res →
           verifyHandle.verifyCleartext (some block) verify =
             .panicked "runtime error: slice bounds out of range")) := by
  constructor
  · intro hne s
    obtain ⟨ys, hys⟩ := goSliceUpTo_pred_isSome block.Plaintext hne
    cases hsig : block.ArmoredSignatureBody with
    | error e => simp [verifyHandle.verifyCleartext, hsig]
    | ok signature =>
      cases hv : verify block.Bytes signature with
      | error e => simp [verifyHandle.verifyCleartext, hsig, hv]
      | ok res => simp [verifyHandle.verifyCleartext, hsig, hv, hys]
  · intro hemp
    constructor
    · rw [hemp]
      decide
    · intro signature res hsig hv
      simp [verifyHandle.verifyCleartext, hsig, hv, hemp, goSliceUpTo]

/-- Witness for C10: a block with plaintext "h\x0a" never panics, and an
accepted block with empty decoded plaintext panics with the slice
error. -/
theorem verifyCleartext_slice_total_iff_nonempty_witness :
    (([104, 10] : List Nat) ≠ []) ∧
    verifyHandle.verifyCleartext
        (some (ClearsignBlock.mk [104, 10] [104] (.ok [1])))
        (fun _ _ => .ok (VerifyResult.mk none)) ≠
      .panicked "runtime error: slice bounds out of range" ∧
    verifyHandle.verifyCleartext
        (some (ClearsignBlock.mk [] [] (.ok [1])))
        (fun _ _ => .ok (VerifyResult.mk none)) =
      .panicked "runtime error: slice bounds out of range" := by
  refine ⟨by decide, ?_, ?_⟩
  · exact (verifyCleartext_slice_total_iff_nonempty
      (ClearsignBlock.mk [104, 10] [104] (.ok [1]))
      (fun _ _ => .ok (VerifyResult.mk none))).1 (by decide)
      "runtime error: slice bounds out of range"
  · exact ((verifyCleartext_slice_total_iff_nonempty
      (ClearsignBlock.mk [] [] (.ok [1]))
      (fun _ _ => .ok (VerifyResult.mk none))).2 rfl).2 [1] (VerifyResult.mk none) rfl rfl
